import Mathlib

/-!
Shallow embedding of the cloudwalk_reporting pipeline core:
`src/normalizer.py` (row normalization and filtering), `src/summary.py`
(metrics aggregation) and the metrics composition in `src/processing.py`.

Raw records come from `csv.DictReader` (`src/reader.py`), so every value a
row carries is a string; an absent key (`dict.get` returning `None`) is
modelled as `none`.
-/

namespace CW

/-! ### Python string primitives used by the normalizer -/

/-- Python `a or b` where `a` is `dict.get(k)` (an optional string) and `b`
a string: `None` and `""` are falsy, every other string is truthy. -/
def pyOr (a : Option String) (b : String) : String :=
  match a with
  | some s => if s = "" then b else s
  | none => b

def pyOr2 (a b : Option String) (c : String) : String :=
  pyOr a (pyOr b c)

def pyOr3 (a b c : Option String) (d : String) : String :=
  pyOr a (pyOr b (pyOr c d))

/-- `str.strip()` on the underlying character list. -/
def pyStripList (l : List Char) : List Char :=
  ((l.dropWhile Char.isWhitespace).reverse.dropWhile Char.isWhitespace).reverse

/-- Python `str.strip()`: drop whitespace from both ends. -/
def pyStrip (s : String) : String :=
  String.mk (pyStripList s.data)

/-- ASCII lower-casing of one character (`str.lower()` restricted to the
ASCII range, which covers every status / type / currency literal compared
against). -/
def lowerChar (c : Char) : Char :=
  if 'A' ≤ c ∧ c ≤ 'Z' then Char.ofNat (c.toNat + 32) else c

/-- ASCII upper-casing of one character. -/
def upperChar (c : Char) : Char :=
  if 'a' ≤ c ∧ c ≤ 'z' then Char.ofNat (c.toNat - 32) else c

/-- Python `str.lower()`. -/
def pyLower (s : String) : String := String.mk (s.data.map lowerChar)

/-- Python `str.upper()`. -/
def pyUpper (s : String) : String := String.mk (s.data.map upperChar)

/-- Python `str.startswith(p)`. -/
def pyStartsWith (s p : String) : Bool := p.data.isPrefixOf s.data

/-- `str.replace(",", ".")` (normalizer.py line 82). -/
def commaToDot (s : String) : String :=
  String.mk (s.data.map (fun c => if c = ',' then '.' else c))

/-- `.replace(".", "").replace("/", "").replace("-", "")` (line 104). -/
def dropMerchantChars (s : String) : String :=
  String.mk (s.data.filter (fun c => !(c == '.' || c == '/' || c == '-')))

/-- Numeric value of a digit run (most significant first). -/
def digitsVal (l : List Char) : Nat :=
  l.foldl (fun a c => a * 10 + (c.toNat - 48)) 0

/-- Split a character list into its leading digit run and the rest. -/
def splitDigits (l : List Char) : List Char × List Char :=
  (l.takeWhile Char.isDigit, l.dropWhile Char.isDigit)

/-- Python `int(s)` on an already-stripped string: optional sign followed by
at least one digit (underscore grouping is outside the model). -/
def pyInt (s : String) : Option Int :=
  let (neg, l) :=
    match s.data with
    | '-' :: r => (true, r)
    | '+' :: r => (false, r)
    | l => (false, l)
  if l ≠ [] ∧ l.all Char.isDigit then
    some (if neg then -(digitsVal l : Int) else (digitsVal l : Int))
  else none

/-! ### `datetime.strptime` for the six formats of `_parse_date_to_iso`

CPython's `_strptime` compiles each format into a regex; the numeric
directives are alternations that try the two-digit form before the
one-digit form, a literal letter matches case-insensitively
(`re.IGNORECASE`) and a whitespace run in the format becomes `\s+`.
After a full match, `datetime(...)` construction validates the calendar
(year ≥ 1, day ≤ days in month, second ≤ 59); any failure is an exception
that `_parse_date_to_iso` catches before trying the next format. -/

/-- One item of a strptime format: a numeric directive or a literal. -/
inductive FItem
  | Y | Mo | D | H | Mi | S | lit (c : Char)
deriving Repr, DecidableEq

/-- The six datetime fields, with strptime's defaults `1900-01-01 00:00:00`. -/
structure DTF where
  year : Nat := 1900
  month : Nat := 1
  day : Nat := 1
  hour : Nat := 0
  minute : Nat := 0
  second : Nat := 0
deriving Repr, DecidableEq

def setField : FItem → Nat → DTF → DTF
  | FItem.Y, v, d => { d with year := v }
  | FItem.Mo, v, d => { d with month := v }
  | FItem.D, v, d => { d with day := v }
  | FItem.H, v, d => { d with hour := v }
  | FItem.Mi, v, d => { d with minute := v }
  | FItem.S, v, d => { d with second := v }
  | FItem.lit _, _, d => d

/-- Read exactly `n` leading digits as a number. -/
def parseNDigitsAux : Nat → Nat → List Char → Option (Nat × List Char)
  | 0, acc, l => some (acc, l)
  | n + 1, acc, c :: l =>
    if c.isDigit then parseNDigitsAux n (acc * 10 + (c.toNat - 48)) l else none
  | _ + 1, _, [] => none

def parseNDigits (n : Nat) (l : List Char) : Option (Nat × List Char) :=
  parseNDigitsAux n 0 l

/-- Candidates of a two-or-one-digit directive, in the order the CPython
regex alternation tries them: the two-digit form (when its value is
admitted by `twoOk`) before the one-digit form (admitted by `oneOk`). -/
def fieldCandidates (twoOk oneOk : Nat → Bool) (l : List Char) :
    List (Nat × List Char) :=
  (match parseNDigits 2 l with
    | some (v, rest) => if twoOk v then [(v, rest)] else []
    | none => []) ++
  (match parseNDigits 1 l with
    | some (v, rest) => if oneOk v then [(v, rest)] else []
    | none => [])

/-- Candidate matches of one format item, in regex backtracking order.
Value sets follow `_strptime.TimeRE`: `%Y` is `\d\d\d\d`; `%m` is
`1[0-2]|0[1-9]|[1-9]`; `%d` is `3[01]|[12]\d|0[1-9]|[1-9]`; `%H` is
`2[0-3]|[0-1]\d|\d`; `%M` is `[0-5]\d|\d`; `%S` is `6[0-1]|[0-5]\d|\d`. -/
def candidatesFor : FItem → List Char → List (Nat × List Char)
  | FItem.Y, l =>
    (match parseNDigits 4 l with
      | some (v, rest) => [(v, rest)]
      | none => [])
  | FItem.Mo, l => fieldCandidates (fun v => 1 ≤ v && v ≤ 12) (fun v => 1 ≤ v && v ≤ 9) l
  | FItem.D, l => fieldCandidates (fun v => 1 ≤ v && v ≤ 31) (fun v => 1 ≤ v && v ≤ 9) l
  | FItem.H, l => fieldCandidates (fun v => v ≤ 23) (fun _ => true) l
  | FItem.Mi, l => fieldCandidates (fun v => v ≤ 59) (fun _ => true) l
  | FItem.S, l => fieldCandidates (fun v => v ≤ 61) (fun _ => true) l
  | FItem.lit _, _ => []

/-- Backtracking match of a whole format against the input; the match must
consume the entire input (strptime's "unconverted data remains" check).
A literal space consumes a nonempty whitespace run (`\s+`); any other
literal matches case-insensitively. -/
def parseFmt : List FItem → List Char → DTF → Option DTF
  | [], l, acc => if l.isEmpty then some acc else none
  | FItem.lit c :: rest, l, acc =>
    if c = ' ' then
      match l with
      | c' :: l' =>
        if c'.isWhitespace then parseFmt rest (l'.dropWhile Char.isWhitespace) acc
        else none
      | [] => none
    else
      match l with
      | c' :: l' => if lowerChar c' = lowerChar c then parseFmt rest l' acc else none
      | [] => none
  | it :: rest, l, acc =>
    (candidatesFor it l).findSome? fun vr => parseFmt rest vr.2 (setField it vr.1 acc)

def isLeapYear (y : Nat) : Bool :=
  (y % 4 == 0 && y % 100 != 0) || y % 400 == 0

def daysInMonth (y m : Nat) : Nat :=
  if m = 2 then (if isLeapYear y then 29 else 28)
  else if m = 4 ∨ m = 6 ∨ m = 9 ∨ m = 11 then 30
  else 31

/-- The validation `datetime(...)` performs on the matched fields. -/
def validDTF (d : DTF) : Bool :=
  1 ≤ d.year && d.year ≤ 9999 && 1 ≤ d.month && d.month ≤ 12 &&
  1 ≤ d.day && d.day ≤ daysInMonth d.year d.month &&
  d.hour ≤ 23 && d.minute ≤ 59 && d.second ≤ 59

/-- `datetime.strptime(date_str.strip(), fmt)` for one format. -/
def tryFormat (fmt : List FItem) (s : String) : Option DTF :=
  match parseFmt fmt (pyStrip s).data {} with
  | some d => if validDTF d then some d else none
  | none => none

/-- The format list of `_parse_date_to_iso` (normalizer.py lines 9–16). -/
def fmts : List (List FItem) :=
  [ [.Y, .lit '-', .Mo, .lit '-', .D],
    [.Y, .lit '/', .Mo, .lit '/', .D],
    [.D, .lit '/', .Mo, .lit '/', .Y],
    [.D, .lit '-', .Mo, .lit '-', .Y],
    [.Y, .lit '-', .Mo, .lit '-', .D, .lit 'T', .H, .lit ':', .Mi, .lit ':', .S],
    [.Y, .lit '-', .Mo, .lit '-', .D, .lit ' ', .H, .lit ':', .Mi, .lit ':', .S] ]

/-- The `for fmt in fmts` loop: first format that parses wins. -/
def tryAllFormats (s : String) : Option DTF :=
  fmts.findSome? (fun f => tryFormat f s)

/-- Zero-padded decimal rendering (`strftime` `%Y` / `%m` / `%d`). -/
def padNat (w n : Nat) : String :=
  let s := toString n
  String.mk (List.replicate (w - s.length) '0') ++ s

/-- `_parse_date_to_iso` (normalizer.py lines 7–26): try the six formats in
order and render the winner as `YYYY-MM-DD`; otherwise fall back to the
first 10 characters when positions 4 and 7 are `'-'`; otherwise `None`. -/
def parse_date_to_iso (date_str : String) : Option String :=
  match tryAllFormats date_str with
  | some d => some (padNat 4 d.year ++ "-" ++ padNat 2 d.month ++ "-" ++ padNat 2 d.day)
  | none =>
    if 10 ≤ date_str.length ∧ date_str.data.get? 4 = some '-' ∧ date_str.data.get? 7 = some '-'
    then some (String.mk (date_str.data.take 10))
    else none

/-! ### `Decimal` parsing and `quantize(Decimal("0.01"))`

`Decimal(str)` (CPython `_pydecimal`) strips whitespace, removes
underscores, then matches `sign? (digits ('.' digits?)? | '.' digits)
([eE] sign? digits)?` (special values NaN/Infinity are outside this
model — the normalizer's claims never touch them).  `quantize` under the
default context rounds with `ROUND_HALF_EVEN` and signals
`InvalidOperation` when the resulting coefficient would exceed the
context precision of 28 digits. -/

/-- A finite decimal `(-1)^neg * mant * 10^exp`. -/
structure PyDecimal where
  neg : Bool
  mant : Nat
  exp : Int
deriving Repr, DecidableEq

def decSigned (d : PyDecimal) : Int :=
  if d.neg then -(d.mant : Int) else (d.mant : Int)

/-- `Decimal(s)` for finite numerals. -/
def parseDecimal (s : String) : Option PyDecimal :=
  let l := (pyStripList s.data).filter (fun c => c != '_')
  let (neg, l) :=
    match l with
    | '-' :: rest => (true, rest)
    | '+' :: rest => (false, rest)
    | l => (false, l)
  let (ip, l) := splitDigits l
  let (fp, l) :=
    match l with
    | '.' :: rest =>
      let (d, r) := splitDigits rest
      (some d, r)
    | l => (none, l)
  let frac := fp.getD []
  if ip = [] ∧ frac = [] then none
  else
    match l with
    | [] => some ⟨neg, digitsVal (ip ++ frac), -(frac.length : Int)⟩
    | e :: rest =>
      if e = 'e' ∨ e = 'E' then
        let (eneg, rest) :=
          match rest with
          | '-' :: r => (true, r)
          | '+' :: r => (false, r)
          | rest => (false, rest)
        let (ed, rest) := splitDigits rest
        if ed = [] ∨ rest ≠ [] then none
        else
          let ev : Int := if eneg then -(digitsVal ed : Int) else (digitsVal ed : Int)
          some ⟨neg, digitsVal (ip ++ frac), ev - (frac.length : Int)⟩
      else none

/-- Round `n / d` (for `d > 0`) to the nearest integer, ties to the even
neighbour — `ROUND_HALF_EVEN`, the default `Decimal` context rounding. -/
def roundHalfEvenInt (n : Int) (d : Nat) : Int :=
  if 2 * Int.emod n d < (d : Int) then Int.ediv n d
  else if (d : Int) < 2 * Int.emod n d then Int.ediv n d + 1
  else if Int.ediv n d % 2 = 0 then Int.ediv n d else Int.ediv n d + 1

/-- `Decimal(s).quantize(Decimal("0.01"))` under the default context,
returned as a value in cents; `none` models the exceptions the
normalizer catches (`InvalidOperation` / `ValueError`). -/
def decimalCents (s : String) : Option Int :=
  match parseDecimal s with
  | none => none
  | some d =>
    let e2 := d.exp + 2
    let c :=
      if 0 ≤ e2 then decSigned d * 10 ^ e2.toNat
      else roundHalfEvenInt (decSigned d) (10 ^ (-e2).toNat)
    if c.natAbs < 10 ^ 28 then some c else none

/-- `f"{amt:.2f}"` for a 2-digit-exponent decimal held as cents. -/
def formatCents (c : Int) : String :=
  (if c < 0 then "-" else "") ++ toString (c.natAbs / 100) ++ "." ++ padNat 2 (c.natAbs % 100)

/-! ### The normalizer (`normalize_and_filter`, normalizer.py lines 28–128) -/

def ALLOWED_STATUSES : List String :=
  ["approved", "chargeback", "reversed", "refunded", "pending", "declined"]

def ALLOWED_TYPES : List String := ["DEBIT", "CREDIT"]

/-- A raw record restricted to the keys the normalizer consults; `none`
models an absent key. -/
structure Row where
  id : Option String := none
  transaction_id : Option String := none
  transaction_code : Option String := none
  status : Option String := none
  date : Option String := none
  timestamp : Option String := none
  currency : Option String := none
  amount : Option String := none
  amount_BRL : Option String := none
  type : Option String := none
  category : Option String := none
  merchant_id : Option String := none
  merchant : Option String := none
  network : Option String := none
deriving Repr, DecidableEq

/-- A canonical transaction — the dict appended at lines 116–126.  Field
`ttype` carries the emitted `"Type"` key (`Type` is not a usable Lean
field name); the other fields match the emitted keys up to case. -/
structure Tx where
  id : String
  status : String
  date : String
  amount : String
  currency : String
  ttype : String
  merchant_id : String
  network : String
  category : String
deriving Repr, DecidableEq

/-- The counter dict initialised at lines 32–39. -/
structure Metrics where
  duplicates_removed : Nat := 0
  below_threshold_excluded : Nat := 0
  invalid_labels : Nat := 0
  invalid_dates : Nat := 0
  invalid_amounts : Nat := 0
  invalid_currency : Nat := 0
deriving Repr, DecidableEq

/-- Loop state of `normalize_and_filter`: the `seen_ids` set (as the list
of insertions), the `normalized` output list and the counters. -/
structure NState where
  seen : List String := []
  normalized : List Tx := []
  metrics : Metrics := {}
deriving Repr, DecidableEq

/-- Lines 43–48: identity with the `id` → `transaction_id` →
`transaction_code` fallback chain, trimmed. -/
def tidOf (r : Row) : String :=
  pyStrip (pyOr3 r.id r.transaction_id r.transaction_code "")

/-- Lines 59–60: status, lower-cased, defaulted to `"unknown"`. -/
def statusOf (r : Row) : String :=
  let raw := pyLower (pyStrip (pyOr r.status ""))
  if raw ∈ ALLOWED_STATUSES then raw else "unknown"

/-- Lines 65–67: the date string handed to `_parse_date_to_iso`. -/
def dateOf (r : Row) : Option String :=
  parse_date_to_iso (pyStrip (pyOr2 r.date r.timestamp ""))

/-- Line 77: `(r.get("currency") or "BRL").strip().upper()`. -/
def currencyRawOf (r : Row) : String :=
  pyUpper (pyStrip (pyOr r.currency "BRL"))

/-- Lines 81–82: the amount string after the fallback chain and the
comma-to-dot substitution. -/
def amtRawOf (r : Row) : String :=
  commaToDot (pyOr2 r.amount r.amount_BRL "0")

/-- Lines 93–94: type, upper-cased, defaulted to `"DEBIT"`. -/
def typeOf (r : Row) : String :=
  let raw := pyUpper (pyStrip (pyOr2 r.type r.category ""))
  if raw ∈ ALLOWED_TYPES then raw else "DEBIT"

/-- Lines 99–104: merchant id with `.`, `/`, `-` removed, then trimmed. -/
def merchantOf (r : Row) : String :=
  pyStrip (dropMerchantChars (pyOr2 r.merchant_id r.merchant ""))

/-- Lines 107–111: network, `int(...)` with fallback 1, re-rendered. -/
def networkOf (r : Row) : String :=
  toString ((pyInt (pyStrip (pyOr r.network "1"))).getD 1)

/-- Line 114: category, defaulted to the resolved type. -/
def categoryOf (r : Row) : String :=
  pyUpper (pyStrip (pyOr r.category (typeOf r)))

/-- One iteration of the `for r in rows` loop body (lines 41–126). -/
def normStep (target_month : String) (st : NState) (r : Row) : NState :=
  let tid := tidOf r
  if tid = "" then st
  else if tid ∈ st.seen then
    { st with metrics :=
        { st.metrics with duplicates_removed := st.metrics.duplicates_removed + 1 } }
  else
    let st1 : NState := { st with seen := tid :: st.seen }
    let st2 : NState :=
      if statusOf r = "unknown" then
        { st1 with metrics :=
            { st1.metrics with invalid_labels := st1.metrics.invalid_labels + 1 } }
      else st1
    match dateOf r with
    | none =>
      { st2 with metrics :=
          { st2.metrics with invalid_dates := st2.metrics.invalid_dates + 1 } }
    | some date_iso =>
      if pyStartsWith date_iso target_month then
        let st3 : NState :=
          if currencyRawOf r = "" then
            { st2 with metrics :=
                { st2.metrics with invalid_currency := st2.metrics.invalid_currency + 1 } }
          else st2
        let currency := if currencyRawOf r = "" then "BRL" else currencyRawOf r
        match decimalCents (amtRawOf r) with
        | none =>
          { st3 with metrics :=
              { st3.metrics with invalid_amounts := st3.metrics.invalid_amounts + 1 } }
        | some amt =>
          if amt ≤ 0 then
            { st3 with metrics :=
                { st3.metrics with below_threshold_excluded :=
                    st3.metrics.below_threshold_excluded + 1 } }
          else
            -- Line 95's `if ttype not in ALLOWED_TYPES` — kept verbatim
            -- even though `typeOf` has already defaulted to "DEBIT".
            let st4 : NState :=
              if typeOf r ∉ ALLOWED_TYPES then
                { st3 with metrics :=
                    { st3.metrics with invalid_labels := st3.metrics.invalid_labels + 1 } }
              else st3
            { st4 with normalized := st4.normalized ++
                [{ id := tid, status := statusOf r, date := date_iso,
                   amount := formatCents amt, currency := currency,
                   ttype := typeOf r, merchant_id := merchantOf r,
                   network := networkOf r, category := categoryOf r }] }
      else st2

/-- `normalize_and_filter(rows, target_month)`. -/
def normalize_and_filter (rows : List Row) (target_month : String) :
    List Tx × Metrics :=
  let st := rows.foldl (normStep target_month) {}
  (st.normalized, st.metrics)

/-! ### `build_summary_metrics` (summary.py lines 3–10) and the metrics
composition of `process_month` (processing.py lines 20–21) -/

/-- The summary dict: input/output counts, the normalizer counters merged
in by `update`, and the derived `rows_excluded` (an `Int`: the Python
subtraction can go negative). -/
structure Summary where
  rows_in : Nat
  rows_out : Nat
  duplicates_removed : Nat
  below_threshold_excluded : Nat
  invalid_labels : Nat
  invalid_dates : Nat
  invalid_amounts : Nat
  invalid_currency : Nat
  rows_excluded : Int
deriving Repr, DecidableEq

def build_summary_metrics (rows_in rows_out : Nat) (extra : Metrics) : Summary :=
  { rows_in := rows_in
    rows_out := rows_out
    duplicates_removed := extra.duplicates_removed
    below_threshold_excluded := extra.below_threshold_excluded
    invalid_labels := extra.invalid_labels
    invalid_dates := extra.invalid_dates
    invalid_amounts := extra.invalid_amounts
    invalid_currency := extra.invalid_currency
    rows_excluded := (rows_in : Int) - (rows_out : Int) - (extra.duplicates_removed : Int) }

/-- The metrics part of `process_month`: normalize, then aggregate with
`rows_in = len(rows)` and `rows_out = len(norm_rows)`. -/
def process_month_metrics (month : String) (rows : List Row) : Summary :=
  let res := normalize_and_filter rows month
  build_summary_metrics rows.length res.1.length res.2

/-! ### Concrete sample rows (used when evaluating the claims) -/

/-- Amount `"10.005"`, otherwise fully valid for month `2024-01`. -/
def rowHalfCent : Row :=
  { id := some "t1", status := some "approved", date := some "2024-01-05",
    amount := some "10.005", type := some "DEBIT" }

/-- Fully valid row whose `currency` key is absent. -/
def rowNoCurrency : Row :=
  { id := some "t1", status := some "approved", date := some "2024-01-05",
    amount := some "10.00", type := some "DEBIT" }

/-- Row whose `currency` is present but whitespace-only. -/
def rowBlankCurrency : Row :=
  { id := some "t1", date := some "2024-01-05", currency := some " ",
    amount := some "5" }

/-- Valid row with an unrecognized `type`. -/
def rowTypeFoo : Row :=
  { id := some "t1", status := some "approved", date := some "2024-01-05",
    amount := some "10.00", type := some "FOO" }

/-- Parseable date one month past the target, `status` absent. -/
def rowOutOfMonth : Row :=
  { id := some "a", date := some "2024-02-01" }

/-- Parseable date one month past the target, `status` valid. -/
def rowOutOfMonthOk : Row :=
  { id := some "a", status := some "approved", date := some "2024-02-01" }

/-- Fully valid row used for the dedup run. -/
def rowDup : Row :=
  { id := some "d1", status := some "approved", date := some "2024-01-07",
    amount := some "12.34", currency := some "BRL", type := some "CREDIT" }

/-- The canonical transaction `rowDup` normalizes to. -/
def txDup : Tx :=
  { id := "d1", status := "approved", date := "2024-01-07", amount := "12.34",
    currency := "BRL", ttype := "CREDIT", merchant_id := "", network := "1",
    category := "CREDIT" }

/-- Row with identity and in-month date but no amount field at all. -/
def rowNoAmount : Row :=
  { id := some "n1", status := some "approved", date := some "2024-01-05" }

/-- Row whose date parses under no format and misses the fallback shape. -/
def rowBadDate : Row :=
  { id := some "x1", status := some "approved", date := some "nonsense" }

/-- Fully valid row carrying the same identity as `rowBadDate`. -/
def rowGoodSameId : Row :=
  { id := some "x1", status := some "approved", date := some "2024-01-05",
    amount := some "5" }

/-- Row whose three identity fields are blank or absent. -/
def rowNoId : Row :=
  { id := some "  ", transaction_code := some "", amount := some "5",
    date := some "2024-01-05" }

/-! ## Helper lemmas -/

theorem pyStrip_empty : pyStrip "" = "" := rfl

theorem pyStrip_pyOr_blank (a : Option String) (b : String)
    (ha : a = none ∨ ∃ s, a = some s ∧ pyStrip s = "") (hb : pyStrip b = "") :
    pyStrip (pyOr a b) = "" := by
  rcases ha with h | ⟨s, hs, hstrip⟩
  · simp only [pyOr, h]
    exact hb
  · subst hs
    by_cases he : s = ""
    · simp only [pyOr, he, if_pos]
      exact hb
    · simpa only [pyOr, if_neg he] using hstrip

theorem pyUpper_ne_empty (s : String) (h : s ≠ "") : pyUpper s ≠ "" := by
  intro hc
  apply h
  have hd := congrArg String.data hc
  simp only [pyUpper] at hd
  rcases s with ⟨l⟩
  cases l with
  | nil => rfl
  | cons c cs => simp at hd

/-- If the computed identity is empty the row is silently skipped
(normalizer.py lines 49–50). -/
theorem normStep_tid_empty (m : String) (st : NState) (r : Row)
    (h : tidOf r = "") : normStep m st r = st := by
  simp [normStep, h]

/-- A row whose identity was already seen only bumps `duplicates_removed`
(lines 53–55). -/
theorem normStep_dup (m : String) (st : NState) (r : Row)
    (h1 : tidOf r ≠ "") (h2 : tidOf r ∈ st.seen) :
    normStep m st r =
      { st with metrics :=
          { st.metrics with duplicates_removed := st.metrics.duplicates_removed + 1 } } := by
  simp [normStep, if_neg h1, if_pos h2]

/-- A fresh nonempty identity is registered in `seen_ids` (line 56) no
matter how the rest of the row fares. -/
theorem normStep_seen (m : String) (st : NState) (r : Row)
    (h1 : tidOf r ≠ "") (h2 : tidOf r ∉ st.seen) :
    (normStep m st r).seen = tidOf r :: st.seen := by
  simp only [normStep, if_neg h1, if_neg h2]
  cases hd : dateOf r <;> (repeat' split) <;> rfl

/-- `roundHalfEvenInt n d` is within half of `d` of `n/d`, and a tie is
resolved to an even quotient. -/
theorem roundHalfEvenInt_spec (n : Int) (d : Nat) (hd : 0 < d) :
    2 * (n - roundHalfEvenInt n d * d).natAbs ≤ d ∧
      (2 * (n - roundHalfEvenInt n d * d).natAbs = d → roundHalfEvenInt n d % 2 = 0) := by
  have hdz : (d : Int) ≠ 0 := by exact_mod_cast hd.ne'
  have h0 := Int.ediv_add_emod n d
  have hr0 : 0 ≤ Int.emod n d := Int.emod_nonneg n hdz
  have hrd : Int.emod n d < d := Int.emod_lt_of_pos n (by exact_mod_cast hd)
  have hs1 : n - Int.ediv n d * (d : Int) = Int.emod n d := by linear_combination -1 * h0
  have hs2 : n - (Int.ediv n d + 1) * (d : Int) = Int.emod n d - d := by
    linear_combination -1 * h0
  unfold roundHalfEvenInt
  split
  · rw [hs1]
    refine ⟨by omega, fun h => by omega⟩
  · split
    · rw [hs2]
      refine ⟨by omega, fun h => by omega⟩
    · split
      · rw [hs1]
        refine ⟨by omega, fun _ => by assumption⟩
      · rw [hs2]
        refine ⟨by omega, fun _ => by omega⟩

/-- The resolved type always lies in `ALLOWED_TYPES` — it has already been
defaulted — so line 95's membership test can never fail. -/
theorem typeOf_mem (r : Row) : typeOf r ∈ ALLOWED_TYPES := by
  by_cases h : pyUpper (pyStrip (pyOr2 r.type r.category "")) ∈ ALLOWED_TYPES
  · simp [typeOf, h]
  · simp only [typeOf, if_neg h]
    decide

/-- Full reduction of `normStep` for a row that survives every filter:
fresh nonempty identity, in-month date, positive quantized amount. -/
theorem normStep_emit (m : String) (st : NState) (r : Row) (dt : String) (c : Int)
    (h1 : tidOf r ≠ "") (h2 : tidOf r ∉ st.seen)
    (hd : dateOf r = some dt) (hm : pyStartsWith dt m = true)
    (hc : decimalCents (amtRawOf r) = some c) (hpos : 0 < c) :
    normStep m st r =
      { seen := tidOf r :: st.seen,
        normalized := st.normalized ++
          [{ id := tidOf r, status := statusOf r, date := dt,
             amount := formatCents c,
             currency := if currencyRawOf r = "" then "BRL" else currencyRawOf r,
             ttype := typeOf r, merchant_id := merchantOf r,
             network := networkOf r, category := categoryOf r }],
        metrics :=
          { st.metrics with
              invalid_labels := st.metrics.invalid_labels +
                (if statusOf r = "unknown" then 1 else 0),
              invalid_currency := st.metrics.invalid_currency +
                (if currencyRawOf r = "" then 1 else 0) } } := by
  have hnt : ¬ typeOf r ∉ ALLOWED_TYPES := not_not_intro (typeOf_mem r)
  have hna : ¬ c ≤ 0 := not_le.mpr hpos
  simp only [normStep, if_neg h1, if_neg h2, hd, hm, hc, if_neg hna, if_neg hnt]
  by_cases hs : statusOf r = "unknown" <;> by_cases hcu : currencyRawOf r = "" <;>
    simp [hs, hcu]

/-! ## Claims -/

/-- **C4**: for every run, the metrics record satisfies
`rows_excluded = rows_in - rows_out - duplicates_removed`, with
`rows_in` the input row count and `rows_out` the canonical transaction
count, exactly as `process_month` wires them into the pure aggregator
`build_summary_metrics`. -/
theorem C4_rows_excluded_identity (month : String) (rows : List Row) :
    (process_month_metrics month rows).rows_excluded =
        ((process_month_metrics month rows).rows_in : Int) -
          ((process_month_metrics month rows).rows_out : Int) -
          ((process_month_metrics month rows).duplicates_removed : Int) ∧
      (process_month_metrics month rows).rows_in = rows.length ∧
      (process_month_metrics month rows).rows_out =
        (normalize_and_filter rows month).1.length ∧
      (process_month_metrics month rows).duplicates_removed =
        (normalize_and_filter rows month).2.duplicates_removed :=
  ⟨rfl, rfl, rfl, rfl⟩

/-- **C8**: a row whose `id`, `transaction_id` and `transaction_code` are
each absent or whitespace-only leaves the loop state untouched: no
canonical transaction, no counter, not even the seen-set changes. -/
theorem C8_missing_identity_skipped (m : String) (st : NState) (r : Row)
    (hid : r.id = none ∨ ∃ s, r.id = some s ∧ pyStrip s = "")
    (htid : r.transaction_id = none ∨ ∃ s, r.transaction_id = some s ∧ pyStrip s = "")
    (htc : r.transaction_code = none ∨ ∃ s, r.transaction_code = some s ∧ pyStrip s = "") :
    normStep m st r = st := by
  have h : tidOf r = "" := by
    unfold tidOf pyOr3
    exact pyStrip_pyOr_blank _ _ hid
      (pyStrip_pyOr_blank _ _ htid (pyStrip_pyOr_blank _ _ htc rfl))
  simp [normStep, h]

theorem C8_witness : normStep "2024-01" {} rowNoId = {} :=
  C8_missing_identity_skipped "2024-01" {} rowNoId
    (Or.inr ⟨"  ", rfl, by decide⟩) (Or.inl rfl) (Or.inr ⟨"", rfl, rfl⟩)

/-- **C7**: a date string on which all six strptime formats fail but which
is at least 10 characters long with `'-'` at positions 4 and 7 is
truncated to its first 10 characters with no calendar validation. -/
theorem C7_loose_fallback (s : String)
    (hfail : tryAllFormats s = none)
    (hlen : 10 ≤ s.length)
    (h4 : s.data.get? 4 = some '-')
    (h7 : s.data.get? 7 = some '-') :
    parse_date_to_iso s = some (String.mk (s.data.take 10)) := by
  have hcond : 10 ≤ s.length ∧ s.data.get? 4 = some '-' ∧ s.data.get? 7 = some '-' :=
    ⟨hlen, h4, h7⟩
  simp only [parse_date_to_iso, hfail, if_pos hcond]

theorem C7_witness : parse_date_to_iso "2024-13-99" = some "2024-13-99" := by
  have h := C7_loose_fallback "2024-13-99" (by decide) (by decide) (by decide) (by decide)
  rw [h]
  decide

/-- **C3** (code-bug evidence): `typeOf` always lands in `ALLOWED_TYPES`
(it has already defaulted to `"DEBIT"`), so the guard at line 95 is dead:
a row with valid status and type `"FOO"` yields type `"DEBIT"` with
`invalid_labels` still 0, although the spec promises an increment. -/
theorem C3_type_counter_dead :
    (∀ r : Row, typeOf r ∈ ALLOWED_TYPES) ∧
      (normalize_and_filter [rowTypeFoo] "2024-01").2.invalid_labels = 0 ∧
      (normalize_and_filter [rowTypeFoo] "2024-01").1.map Tx.ttype = ["DEBIT"] := by
  exact ⟨typeOf_mem, by decide, by decide⟩

/-- **C1** (counterexample): the normalizer maps the amount `"10.005"` to
the canonical string `"10.00"`, not the `"10.01"` the half-up claim
demands. -/
theorem C1_counterexample :
    (normalize_and_filter [rowHalfCent] "2024-01").1.map Tx.amount = ["10.00"] ∧
      ("10.00" : String) ≠ "10.01" := by
  decide

/-- **C2** (counterexample): a row with no `currency` key at all gets the
default `"BRL"` while `invalid_currency` stays 0 — the `or "BRL"`
fallback fires before the emptiness test, so absence never reaches the
counter. -/
theorem C2_counterexample :
    (normalize_and_filter [rowNoCurrency] "2024-01").2.invalid_currency = 0 ∧
      (normalize_and_filter [rowNoCurrency] "2024-01").1.map Tx.currency = ["BRL"] := by
  decide

/-- **C6** (counterexample): an out-of-month row whose status is absent
does increment a counter (`invalid_labels`, from the status step that
runs before the date filter), contradicting the claim that no metrics
counter moves for such rows. -/
theorem C6_counterexample :
    normalize_and_filter [rowOutOfMonth] "2024-01" = ([], { invalid_labels := 1 }) := by
  decide

/-- **C1 (amended)**: for every amount string that parses as a finite
decimal, the quantized cent value produced by the normalizer's
`Decimal(...).quantize(Decimal("0.01"))` step is the half-EVEN rounding
of 100 × the parsed value (Python's default `ROUND_HALF_EVEN`, not
half-up): it differs from the exact scaled value by at most half a unit,
and an exact tie lands on an even number of cents. -/
theorem C1_half_even_rounding (s : String) (d : PyDecimal) (c : Int)
    (hp : parseDecimal s = some d) (hc : decimalCents s = some c) :
    2 * (decSigned d * 10 ^ (d.exp + 2).toNat -
          c * ((10 ^ (-(d.exp + 2)).toNat : Nat) : Int)).natAbs
        ≤ 10 ^ (-(d.exp + 2)).toNat ∧
      (2 * (decSigned d * 10 ^ (d.exp + 2).toNat -
            c * ((10 ^ (-(d.exp + 2)).toNat : Nat) : Int)).natAbs
          = 10 ^ (-(d.exp + 2)).toNat → c % 2 = 0) := by
  simp only [decimalCents, hp] at hc
  by_cases h0 : 0 ≤ d.exp + 2
  · rw [if_pos h0] at hc
    split at hc
    · rw [Option.some.injEq] at hc
      subst hc
      have hz : (-(d.exp + 2)).toNat = 0 := by omega
      rw [hz]
      simp
    · exact absurd hc (by simp)
  · rw [if_neg h0] at hc
    split at hc
    · rw [Option.some.injEq] at hc
      subst hc
      have hz : (d.exp + 2).toNat = 0 := by omega
      rw [hz, pow_zero, mul_one]
      exact roundHalfEvenInt_spec (decSigned d) _ (pow_pos (by norm_num) _)
    · exact absurd hc (by simp)

theorem C1_witness :
    decimalCents "10.005" = some 1000 ∧ (1000 : Int) % 2 = 0 := by
  refine ⟨by decide, ?_⟩
  exact (C1_half_even_rounding "10.005" ⟨false, 10005, -3⟩ 1000
    (by decide) (by decide)).2 (by decide)

/-- **C2 (amended)**: for a row that reaches the currency step and emits a
transaction, an absent or empty `currency` silently defaults to `"BRL"`
with no counter change; `invalid_currency` is incremented (with the
`"BRL"` default) exactly when `currency` is present and nonempty but
whitespace-only; and a currency that is nonempty after trimming is kept
trimmed and upper-cased with no counter change. -/
theorem C2_currency_rules (m : String) (st : NState) (r : Row) (dt : String) (c : Int)
    (h1 : tidOf r ≠ "") (h2 : tidOf r ∉ st.seen)
    (hd : dateOf r = some dt) (hm : pyStartsWith dt m = true)
    (hc : decimalCents (amtRawOf r) = some c) (hpos : 0 < c) :
    ((r.currency = none ∨ r.currency = some "") →
        (normStep m st r).normalized.map Tx.currency =
            st.normalized.map Tx.currency ++ ["BRL"] ∧
          (normStep m st r).metrics.invalid_currency = st.metrics.invalid_currency) ∧
      (∀ s, r.currency = some s → s ≠ "" → pyStrip s = "" →
        (normStep m st r).normalized.map Tx.currency =
            st.normalized.map Tx.currency ++ ["BRL"] ∧
          (normStep m st r).metrics.invalid_currency = st.metrics.invalid_currency + 1) ∧
      (∀ s, r.currency = some s → pyStrip s ≠ "" →
        (normStep m st r).normalized.map Tx.currency =
            st.normalized.map Tx.currency ++ [pyUpper (pyStrip s)] ∧
          (normStep m st r).metrics.invalid_currency = st.metrics.invalid_currency) := by
  rw [normStep_emit m st r dt c h1 h2 hd hm hc hpos]
  refine ⟨fun hcur => ?_, fun s hs hne hblank => ?_, fun s hs hblank => ?_⟩
  · have hcraw : currencyRawOf r = "BRL" := by
      rcases hcur with h | h <;> (unfold currencyRawOf; rw [h]; decide)
    simp [hcraw]
  · have hcraw : currencyRawOf r = "" := by
      unfold currencyRawOf
      rw [hs]
      simp only [pyOr, if_neg hne, hblank]
      decide
    simp [hcraw]
  · have hsne : s ≠ "" := by
      intro h
      subst h
      exact hblank rfl
    have hcraw : currencyRawOf r = pyUpper (pyStrip s) := by
      unfold currencyRawOf
      rw [hs]
      simp only [pyOr, if_neg hsne]
    have hcne : currencyRawOf r ≠ "" := by
      rw [hcraw]
      exact pyUpper_ne_empty _ hblank
    simp [hcraw, if_neg hcne]
    exact ⟨fun h => absurd h (pyUpper_ne_empty _ hblank), pyUpper_ne_empty _ hblank⟩

theorem C2_witness :
    (normStep "2024-01" {} rowBlankCurrency).normalized.map Tx.currency = ["BRL"] ∧
      (normStep "2024-01" {} rowBlankCurrency).metrics.invalid_currency = 1 := by
  have h := (C2_currency_rules "2024-01" {} rowBlankCurrency "2024-01-05" 500
    (by decide) (by decide) (by decide) (by decide) (by decide) (by decide)).2.1
    " " rfl (by decide) (by decide)
  simpa using h

/-- **C5**: feeding a row that alone yields exactly one canonical
transaction twice in one run still yields exactly that transaction (the
first occurrence), with `duplicates_removed` up by exactly 1 and every
other counter untouched: the duplicate reaches no later counter. -/
theorem C5_dedup_idempotent (m : String) (r : Row) (tx : Tx)
    (h : (normalize_and_filter [r] m).1 = [tx]) :
    normalize_and_filter [r, r] m =
      ([tx],
        { (normalize_and_filter [r] m).2 with duplicates_removed :=
            (normalize_and_filter [r] m).2.duplicates_removed + 1 }) := by
  simp only [normalize_and_filter, List.foldl_cons, List.foldl_nil] at h ⊢
  have h1 : tidOf r ≠ "" := by
    intro he
    rw [normStep_tid_empty m {} r he] at h
    simp at h
  have h2 : tidOf r ∉ (({} : NState)).seen := by
    simp [NState.seen]
  have hmem : tidOf r ∈ (normStep m {} r).seen := by
    rw [normStep_seen m {} r h1 h2]
    exact List.mem_cons_self _ _
  rw [normStep_dup m (normStep m {} r) r h1 hmem]
  simp [h]

theorem C5_witness :
    normalize_and_filter [rowDup, rowDup] "2024-01" =
      ([txDup], { duplicates_removed := 1 }) := by
  rw [C5_dedup_idempotent "2024-01" rowDup txDup (by decide)]
  decide

/-- **C6 (amended)**: a row with a fresh identity whose date parses but
falls outside the target month is excluded from the output and the month
filter itself increments no counter; the only counter that can move for
such a row is `invalid_labels`, incremented by the status check that
runs before the date filter, and the identity is still registered as
seen. -/
theorem C6_out_of_month (m : String) (st : NState) (r : Row) (dt : String)
    (h1 : tidOf r ≠ "") (h2 : tidOf r ∉ st.seen)
    (hd : dateOf r = some dt) (hm : pyStartsWith dt m = false) :
    normStep m st r =
      { st with
          seen := tidOf r :: st.seen,
          metrics := { st.metrics with invalid_labels := st.metrics.invalid_labels +
            (if statusOf r = "unknown" then 1 else 0) } } := by
  simp only [normStep, if_neg h1, if_neg h2, hd, hm]
  by_cases hs : statusOf r = "unknown" <;> simp [hs]

theorem C6_witness :
    normStep "2024-01" {} rowOutOfMonthOk = { seen := ["a"] } := by
  rw [C6_out_of_month "2024-01" {} rowOutOfMonthOk "2024-02-01"
    (by decide) (by decide) (by decide) (by decide)]
  decide

/-- **C9**: a row with identity and valid in-month date whose `amount`
and `amount_BRL` are both absent or empty is treated as amount `"0"`:
it is rejected with `below_threshold_excluded` incremented by 1, while
`invalid_amounts` stays put and no transaction is emitted. -/
theorem C9_zero_amount (m : String) (st : NState) (r : Row) (dt : String)
    (h1 : tidOf r ≠ "") (h2 : tidOf r ∉ st.seen)
    (hd : dateOf r = some dt) (hm : pyStartsWith dt m = true)
    (ha : r.amount = none ∨ r.amount = some "")
    (hb : r.amount_BRL = none ∨ r.amount_BRL = some "") :
    (normStep m st r).metrics.below_threshold_excluded =
        st.metrics.below_threshold_excluded + 1 ∧
      (normStep m st r).metrics.invalid_amounts = st.metrics.invalid_amounts ∧
      (normStep m st r).normalized = st.normalized := by
  have hamt : amtRawOf r = "0" := by
    unfold amtRawOf pyOr2
    rcases ha with h | h <;> rcases hb with h' | h' <;> rw [h, h'] <;> decide
  have hc : decimalCents (amtRawOf r) = some 0 := by
    rw [hamt]
    decide
  simp only [normStep, if_neg h1, if_neg h2, hd, hm, hc]
  by_cases hs : statusOf r = "unknown" <;> by_cases hcu : currencyRawOf r = "" <;>
    simp [hs, hcu]

theorem C9_witness :
    (normStep "2024-01" {} rowNoAmount).metrics.below_threshold_excluded = 1 ∧
      (normStep "2024-01" {} rowNoAmount).metrics.invalid_amounts = 0 ∧
      (normStep "2024-01" {} rowNoAmount).normalized = [] := by
  have h := C9_zero_amount "2024-01" {} rowNoAmount "2024-01-05"
    (by decide) (by decide) (by decide) (by decide) (Or.inl rfl) (Or.inl rfl)
  simpa using h

/-- **C10**: an identity is registered as seen before date validation, so
a row following one whose date failed to parse but carrying the same
identity is counted as a duplicate (`duplicates_removed` + 1) and
skipped, while the first row already counted `invalid_dates` + 1 — and
no transaction is emitted for that identity at all. -/
theorem C10_rejected_row_registers_identity (m : String) (st : NState) (r r' : Row)
    (h1 : tidOf r ≠ "") (h2 : tidOf r ∉ st.seen)
    (hd : dateOf r = none) (ht : tidOf r' = tidOf r) :
    (normStep m (normStep m st r) r').normalized = st.normalized ∧
      (normStep m (normStep m st r) r').metrics.duplicates_removed =
        st.metrics.duplicates_removed + 1 ∧
      (normStep m (normStep m st r) r').metrics.invalid_dates =
        st.metrics.invalid_dates + 1 := by
  have h1' : tidOf r' ≠ "" := by
    rw [ht]
    exact h1
  have hmem : tidOf r' ∈ (normStep m st r).seen := by
    rw [ht, normStep_seen m st r h1 h2]
    exact List.mem_cons_self _ _
  rw [normStep_dup m (normStep m st r) r' h1' hmem]
  simp only [normStep, if_neg h1, if_neg h2, hd]
  by_cases hs : statusOf r = "unknown" <;> simp [hs]

theorem C10_witness :
    (normStep "2024-01" (normStep "2024-01" {} rowBadDate) rowGoodSameId).normalized = [] ∧
      (normStep "2024-01" (normStep "2024-01" {} rowBadDate) rowGoodSameId).metrics.duplicates_removed = 1 ∧
      (normStep "2024-01" (normStep "2024-01" {} rowBadDate) rowGoodSameId).metrics.invalid_dates = 1 := by
  have h := C10_rejected_row_registers_identity "2024-01" {} rowBadDate rowGoodSameId
    (by decide) (by decide) (by decide) (by decide)
  simpa using h

end CW
